import Mathlib

/-! # BookBrainz site helpers: a shallow embedding

Embedding of `src/server/helpers/utils.js` (identifier-type filtering, entity
model lookup, the `template` tag, page titles, revision assembly) and of the
state logic of `src/client/components/forms/publication.jsx`.

JavaScript values are modelled explicitly.  Numbers are restricted to
integers, so strict equality (`===`) and the `SameValueZero` comparison used
by `Set.prototype.has` both coincide with structural equality on primitives.
-/

set_option autoImplicit false

namespace BookBrainz

/-! ## JavaScript primitives -/

/-- A JavaScript primitive value (numbers restricted to integers). -/
inductive JPrim where
  | undefined
  | null
  | bool (b : Bool)
  | num (n : Int)
  | str (s : String)
  deriving DecidableEq, Repr

/-! ## Identifier-type filtering (`utils.js`, lines 167-197) -/

/-- An identifier type row: the fields the helpers read. -/
structure IdentifierType where
  id : JPrim
  entityType : JPrim
  deriving DecidableEq, Repr

/-- An identifier on an entity; only `identifier.type` is read. -/
structure Identifier where
  type : IdentifierType
  deriving DecidableEq, Repr

/-- The `identifierSet` relation of an entity. -/
structure IdentifierSet where
  identifiers : List Identifier
  deriving DecidableEq, Repr

/-- An entity as seen by the filtering helpers.  `identifierSet = none` stands
for a missing (`undefined` or `null`) relation. -/
structure Entity where
  type : JPrim
  identifierSet : Option IdentifierSet
  deriving DecidableEq, Repr

/-- `identifierTypes.filter((type) => type.entityType === entityType)`. -/
def filterIdentifierTypesByEntityType (identifierTypes : List IdentifierType)
    (entityType : JPrim) : List IdentifierType :=
  identifierTypes.filter (fun type => decide (type.entityType = entityType))

/-- `Set.prototype.add`: a set is kept as a duplicate-free list in insertion order. -/
def JSet.add (s : List JPrim) (v : JPrim) : List JPrim :=
  if v ∈ s then s else s ++ [v]

/-- `Set.prototype.has`. -/
def JSet.has (s : List JPrim) (v : JPrim) : Bool :=
  decide (v ∈ s)

/-- The `for (const identifier of ...) typesOnEntity.add(identifier.type.id)` loop. -/
def collectTypesOnEntity (identifiers : List Identifier) : List JPrim :=
  identifiers.foldl (fun typesOnEntity identifier => JSet.add typesOnEntity identifier.type.id) []

/-- `filterIdentifierTypesByEntity(identifierTypes, entity)`. -/
def filterIdentifierTypesByEntity (identifierTypes : List IdentifierType)
    (entity : Entity) : List IdentifierType :=
  match entity.identifierSet with
  | none => filterIdentifierTypesByEntityType identifierTypes entity.type
  | some identifierSet =>
    if identifierSet.identifiers.length < 1 then
      filterIdentifierTypesByEntityType identifierTypes entity.type
    else
      let typesOnEntity := collectTypesOnEntity identifierSet.identifiers
      identifierTypes.filter
        (fun type => decide (type.entityType = entity.type) || JSet.has typesOnEntity type.id)

/-! ## Entity model lookup (`utils.js`, lines 42-51 and 209-217) -/

/-- The five entity models `getEntityModels` destructures from the ORM.  A
member the ORM does not define is `undefined`, here `none`; a defined model is
a class, hence truthy. -/
structure OrmModels (M : Type) where
  Author : Option M
  Edition : Option M
  EditionGroup : Option M
  Publisher : Option M
  Work : Option M

/-- The object literal returned by `getEntityModels`: its five own properties. -/
structure EntityModels (M : Type) where
  Author : Option M
  Edition : Option M
  EditionGroup : Option M
  Publisher : Option M
  Work : Option M

/-- `getEntityModels(orm)`. -/
def getEntityModels {M : Type} (orm : OrmModels M) : EntityModels M :=
  { Author := orm.Author
    Edition := orm.Edition
    EditionGroup := orm.EditionGroup
    Publisher := orm.Publisher
    Work := orm.Work }

/-- Names of the members every object literal inherits from `Object.prototype`. -/
def objectPrototypeKeys : List String :=
  ["constructor", "__defineGetter__", "__defineSetter__", "hasOwnProperty",
   "__lookupGetter__", "__lookupSetter__", "isPrototypeOf", "propertyIsEnumerable",
   "toString", "valueOf", "__proto__", "toLocaleString"]

/-- Result of the property read `entityModels[type]`. -/
inductive PropertyRead (M : Type) where
  | model (m : M)
  | undefined
  | inherited (key : String)
  deriving DecidableEq, Repr

/-- An own property holding `v`. -/
def PropertyRead.ofOwn {M : Type} : Option M → PropertyRead M
  | some m => .model m
  | none => .undefined

/-- JavaScript truthiness of a property read: models and the inherited
built-in members are objects, `undefined` is falsy. -/
def PropertyRead.truthy {M : Type} : PropertyRead M → Bool
  | .model _ => true
  | .undefined => false
  | .inherited _ => true

/-- The read `entityModels[type]`: own properties first, then the prototype chain. -/
def EntityModels.read {M : Type} (entityModels : EntityModels M) (type : String) :
    PropertyRead M :=
  if type = "Author" then .ofOwn entityModels.Author
  else if type = "Edition" then .ofOwn entityModels.Edition
  else if type = "EditionGroup" then .ofOwn entityModels.EditionGroup
  else if type = "Publisher" then .ofOwn entityModels.Publisher
  else if type = "Work" then .ofOwn entityModels.Work
  else if type ∈ objectPrototypeKeys then .inherited type
  else .undefined

/-- `getEntityModelByType(orm, type)`; a thrown `Error` is its message. -/
def getEntityModelByType {M : Type} (orm : OrmModels M) (type : String) :
    Except String (PropertyRead M) :=
  let entityModels := getEntityModels orm
  if !(entityModels.read type).truthy then
    .error ("Unrecognized entity type: '" ++ type ++ "'")
  else
    .ok (entityModels.read type)

/-- The entity model the name `type` maps to, if any: one of the five model
names, defined on the ORM. -/
def entityModelNamed {M : Type} (orm : OrmModels M) (type : String) : Option M :=
  if type = "Author" then orm.Author
  else if type = "Edition" then orm.Edition
  else if type = "EditionGroup" then orm.EditionGroup
  else if type = "Publisher" then orm.Publisher
  else if type = "Work" then orm.Work
  else none

/-! ## The `template` tag (`utils.js`, lines 233-246) -/

/-- The array read `strings[i]`: `undefined` past the end. -/
def arrayGet (strings : List String) (i : Nat) : JPrim :=
  match strings[i]? with
  | some s => .str s
  | none => .undefined

/-- String form of an element under `Array.prototype.join`: `undefined` and
`null` give the empty string, anything else its `String(...)` form. -/
def joinElement : JPrim → String
  | .undefined => ""
  | .null => ""
  | .bool true => "true"
  | .bool false => "false"
  | .num n => toString n
  | .str s => s

/-- `result.join('')`. -/
def joinEmpty : List JPrim → String
  | [] => ""
  | x :: rest => joinElement x ++ joinEmpty rest

/-- The `keys.forEach((key, i) => result.push(values[key], strings[i + 1]))`
loop, from index `i` on. -/
def templateLoop (strings : List String) (values : String → JPrim) :
    Nat → List String → List JPrim → List JPrim
  | _, [], result => result
  | i, key :: keys, result =>
    templateLoop strings values (i + 1) keys (result ++ [values key, arrayGet strings (i + 1)])

/-- `template(strings, ...keys)`: the returned closure, applied to `values`.
The object `values` is given by its property read `values[key]`. -/
def template (strings : List String) (keys : List String) (values : String → JPrim) : String :=
  let result := [arrayGet strings 0]
  joinEmpty (templateLoop strings values 0 keys result)

/-- The interleaving `s0 ++ v1 ++ s1 ++ ... ++ vn ++ sn` of the spec, from the
first literal and the pairs `(vi, si)`. -/
def interleave (s0 : String) : List (String × String) → String
  | [] => s0
  | (v, s) :: rest => interleave (s0 ++ v ++ s) rest

/-- The string form `String(v)` of a value, as string concatenation and
template literals convert it. -/
def JPrim.toStr : JPrim → String
  | .undefined => "undefined"
  | .null => "null"
  | .bool true => "true"
  | .bool false => "false"
  | .num n => toString n
  | .str s => s

/-- How a value shows in the output, in words: `undefined` and `null` leave
nothing, any other value leaves its string form. -/
def renderValue (v : JPrim) : String :=
  if v = .undefined ∨ v = .null then "" else v.toStr

/-- The values object whose `name` is `null`. -/
def nullNameValues (key : String) : JPrim :=
  if key = "name" then .null else .undefined

/-! ## Page titles (`utils.js`, lines 257-276) -/

/-- The `defaultAlias` relation: `name` is absent (`none`) or a string. -/
structure DefaultAlias where
  name : Option String
  deriving DecidableEq, Repr

/-- An entity as read by `createEntityPageTitle`. -/
structure TitledEntity where
  defaultAlias : Option DefaultAlias
  deriving DecidableEq, Repr

/-- The object literal `{name: ...}` handed to the title template. -/
structure NamedValues where
  name : String
  deriving DecidableEq, Repr

/-- Property read on the literal `{name: ...}` at its own keys. -/
def NamedValues.read (o : NamedValues) (key : String) : JPrim :=
  if key = "name" then .str o.name else .undefined

/-- `createEntityPageTitle(entity, titleForUnnamed, templateForNamed)`;
`entity = none` is a `null` entity.  The guard
`entity && entity.defaultAlias && entity.defaultAlias.name` is truthy exactly
when all three are present and the name is not the empty string. -/
def createEntityPageTitle (entity : Option TitledEntity) (titleForUnnamed : String)
    (templateForNamed : NamedValues → String) : String :=
  match entity with
  | none => titleForUnnamed
  | some e =>
    match e.defaultAlias with
    | none => titleForUnnamed
    | some defaultAlias =>
      match defaultAlias.name with
      | none => titleForUnnamed
      | some name =>
        if name = "" then titleForUnnamed else templateForNamed { name := name }

/-- The tagged template with literals "Work: ", "" and key "name". -/
def workTitleTemplate (values : NamedValues) : String :=
  template ["Work: ", ""] ["name"] values.read

/-! ## JSON values and dictionaries -/

/-- A JSON-like JavaScript value, as produced by `toJSON()` and query rows. -/
inductive Json where
  | prim (p : JPrim)
  | obj (fields : List (String × Json))
  | arr (items : List Json)

/-- A plain object as its own properties, in insertion order. -/
abbrev Dict := List (String × Json)

/-- The value `undefined`. -/
def Json.undefined : Json := .prim .undefined

/-- The value `null`. -/
def Json.null : Json := .prim .null

/-- JavaScript truthiness. -/
def Json.truthy : Json → Bool
  | .prim .undefined => false
  | .prim .null => false
  | .prim (.bool b) => b
  | .prim (.num n) => n != 0
  | .prim (.str s) => s != ""
  | .obj _ => true
  | .arr _ => true

/-- Whether `key` is an own property. -/
def Dict.hasKey (d : Dict) (key : String) : Bool :=
  d.any (fun kv => kv.1 == key)

/-- The entry that counts for `key`: when the list names a key more than once
the last entry wins, as in an object literal. -/
def Dict.find? : Dict → String → Option Json
  | [], _ => none
  | kv :: rest, key =>
    match Dict.find? rest key with
    | some v => some v
    | none => if kv.1 == key then some kv.2 else none

/-- The read `d.key` for a fixed key that `Object.prototype` does not define:
the own property, or `undefined`. -/
def Dict.get (d : Dict) (key : String) : Json :=
  match d.find? key with
  | some v => v
  | none => Json.undefined

/-- The assignment `d.key = v`: overwrite in place, or append a new property. -/
def Dict.set (d : Dict) (key : String) (v : Json) : Dict :=
  if d.hasKey key then d.map (fun kv => if kv.1 == key then (key, v) else kv)
  else d ++ [(key, v)]

/-- The statement `delete d.key`. -/
def Dict.delete (d : Dict) (key : String) : Dict :=
  d.filter (fun kv => !(kv.1 == key))

/-- Object spread `{...target, ...source}`: the properties of `source` are
assigned onto `target` in order. -/
def Dict.spread (target source : Dict) : Dict :=
  source.foldl (fun acc kv => acc.set kv.1 kv.2) target

/-- The read `v.key` on an arbitrary non-nullish value, for a key no prototype
defines: objects give their own property, every other value `undefined`. -/
def Json.get (v : Json) (key : String) : Json :=
  match v with
  | .obj fields => Dict.get fields key
  | _ => Json.undefined

/-! ## Revision assembly (`utils.js`, lines 52-139) -/

/-- The revision subtype models of the ORM. -/
inductive RevisionModel where
  | AuthorRevision
  | EditionRevision
  | EditionGroupRevision
  | PublisherRevision
  | WorkRevision
  deriving DecidableEq, Repr

/-- The database behind the ORM, as far as revision assembly observes it.  A
rejected promise is `Except.error`.
* `fetchRevision Model id`: `new Model({id}).fetch({withRelated: ['data', 'entity']})`,
  resolved to `null` (`none`) or to a model, given by its `toJSON()`;
* `fetchAliasSet id`: `new AliasSet({id}).fetch({withRelated: ['defaultAlias']})`;
* `fetchEntity bbid`: `new Entity({bbid}).fetch()`;
* `parentAliasRows entityType bbid`: `queryResult.rows` of the raw parent-alias
  query, `none` when it is not an array;
* `camelCase`: lodash `_.camelCase`. -/
structure RevisionOrm where
  fetchRevision : RevisionModel → Json → Except String (Option Dict)
  fetchAliasSet : Json → Except String (Option Dict)
  fetchEntity : Json → Except String (Option Dict)
  parentAliasRows : Json → Json → Except String (Option (List Dict))
  camelCase : String → String

/-- Lodash `_.mapKeys(object, (value, key) => f(key))`. -/
def mapKeys (f : String → String) (object : Dict) : Dict :=
  object.foldl (fun result kv => result.set (f kv.1) kv.2) []

/-- The read `rows[0]`. -/
def firstRow (rows : List Dict) : Json :=
  match rows with
  | [] => Json.undefined
  | row :: _ => .obj row

/-- `getParentAlias(orm, entityType, bbid)`: `null` is `none`. -/
def getParentAlias (orm : RevisionOrm) (entityType bbid : Json) :
    Except String (Option Dict) :=
  match orm.parentAliasRows entityType bbid with
  | .error e => .error e
  | .ok none => .ok none
  | .ok (some queryRows) =>
    let rows := queryRows.map (fun rawQueryResult => mapKeys orm.camelCase rawQueryResult)
    .ok (some [("parentAlias", firstRow rows)])

/-- `getRevisionModels(orm)`. -/
def getRevisionModels : List RevisionModel :=
  [.AuthorRevision, .EditionGroupRevision, .EditionRevision, .PublisherRevision, .WorkRevision]

/-- The expression `modelAchievement.toJSON().bbid ? modelAchievement.toJSON().bbid : null`. -/
def modelBbid (modelJson : Dict) : Json :=
  if (modelJson.get "bbid").truthy then modelJson.get "bbid" else Json.null

/-- The expression
`modelAchievement.toJSON().data ? modelAchievement.toJSON().data.aliasSetId : null`. -/
def modelAliasSetId (modelJson : Dict) : Json :=
  if (modelJson.get "data").truthy then (modelJson.get "data").get "aliasSetId" else Json.null

/-- The expression `x ? x.toJSON() : {}` and the spread of a possibly `null` object. -/
def dictOrEmpty : Option Dict → Dict
  | some json => json
  | none => []

/-- The object literal
`{revisionId, ...revision, ...defaultAliasDict, ...entityDict, ...parentAliasDict}`. -/
def mergeRevision (revisionId : Json) (revision defaultAliasDict entityDict parentAliasDict : Dict) :
    Dict :=
  (((Dict.spread [("revisionId", revisionId)] revision).spread defaultAliasDict).spread
    entityDict).spread parentAliasDict

/-- The statements `revision.editor = revision.author; delete revision.author;`. -/
def renameAuthor (revision : Dict) : Dict :=
  (revision.set "editor" (revision.get "author")).delete "author"

/-- The body of `if (modelAchievement) { ... }` in `getCompleteRevision`, for
the fetched row `modelJson = modelAchievement.toJSON()`.  The two fetches of
`Promise.all` are both issued; a rejection of either rejects the whole. -/
def assembleRevision (orm : RevisionOrm) (revision : Dict) (modelJson : Dict) :
    Except String Dict :=
  let bbid := modelBbid modelJson
  let aliasSetId := modelAliasSetId modelJson
  match orm.fetchAliasSet aliasSetId, orm.fetchEntity bbid with
  | .error e, _ => .error e
  | .ok _, .error e => .error e
  | .ok aliasSet, .ok entity =>
    let defaultAliasDict := dictOrEmpty aliasSet
    let entityDict := dictOrEmpty entity
    match getParentAlias orm (entityDict.get "type") (entityDict.get "bbid") with
    | .error e => .error e
    | .ok parentAliasDict =>
      let revisionId := revision.get "id"
      .ok (mergeRevision revisionId (renameAuthor revision) defaultAliasDict entityDict
        (dictOrEmpty parentAliasDict))

/-- The `for` loop of `getCompleteRevision` over the remaining models. -/
def getCompleteRevisionLoop (orm : RevisionOrm) (revision : Dict) :
    List RevisionModel → Except String Dict
  | [] => .ok []
  | Model :: rest =>
    match orm.fetchRevision Model (revision.get "id") with
    | .error e => .error e
    | .ok none => getCompleteRevisionLoop orm revision rest
    | .ok (some modelJson) => assembleRevision orm revision modelJson

/-- `getCompleteRevision(revision, orm)`. -/
def getCompleteRevision (revision : Dict) (orm : RevisionOrm) : Except String Dict :=
  getCompleteRevisionLoop orm revision getRevisionModels

/-- A sample database: the revision sits in the edition subtype table only. -/
def sampleOrm : RevisionOrm :=
  { fetchRevision := fun Model _ =>
      match Model with
      | .EditionRevision =>
        .ok (some [("id", .prim (.num 5)), ("bbid", .prim (.str "b-1")),
          ("data", .obj [("aliasSetId", .prim (.num 9))])])
      | _ => .ok none
    fetchAliasSet := fun _ =>
      .ok (some [("id", .prim (.num 9)), ("defaultAlias", .obj [("name", .prim (.str "Foo"))])])
    fetchEntity := fun _ =>
      .ok (some [("bbid", .prim (.str "b-1")), ("type", .prim (.str "Edition"))])
    parentAliasRows := fun _ _ =>
      .ok (some [[("name", .prim (.str "Old")), ("sort_name", .prim (.str "Old, The"))]])
    camelCase := fun key => if key = "sort_name" then "sortName" else key }

/-- A sample database in which no subtype table holds the revision. -/
def emptyOrm : RevisionOrm :=
  { sampleOrm with fetchRevision := fun _ _ => .ok none }

/-- A sample revision row with its `author` relation. -/
def sampleRevision : Dict :=
  [("id", .prim (.num 5)), ("author", .obj [("name", .prim (.str "editor1"))]),
   ("note", .prim (.str "typo"))]

/-- A sample database whose entity row carries a column named `author`. -/
def authorColumnOrm : RevisionOrm :=
  { sampleOrm with
    fetchEntity := fun _ =>
      .ok (some [("bbid", .prim (.str "b-1")), ("type", .prim (.str "Edition")),
        ("author", .prim (.str "Jane Austen"))]) }

/-- The parent-alias fields, in words: nothing when the query yields no array
of rows, else the one field `parentAlias` holding the first row with its keys
in camel case (`undefined` when there is no row). -/
def parentAliasPart (camelCase : String → String) (queryRows : Option (List Dict)) : Dict :=
  match queryRows with
  | none => []
  | some rows => [("parentAlias", firstRow (rows.map (mapKeys camelCase)))]

/-- The read of a key in the merged dictionary, in words: the parent-alias
fields win over the entity fields, these over the default-alias fields, these
over the revision fields (where `editor` holds the old `author` value and
`author` is gone), and these over `revisionId`, the revision's id. -/
def mergedRead (revision defaultAliasDict entityDict parentAliasDict : Dict) (key : String) :
    Json :=
  if parentAliasDict.hasKey key then parentAliasDict.get key
  else if entityDict.hasKey key then entityDict.get key
  else if defaultAliasDict.hasKey key then defaultAliasDict.get key
  else if key = "editor" then revision.get "author"
  else if key = "author" then Json.undefined
  else if revision.hasKey key then revision.get key
  else if key = "revisionId" then revision.get "id"
  else Json.undefined

/-! ## The publication form (`publication.jsx`) -/

/-- Component state of the publication form. -/
structure FormState where
  tab : Int
  aliasesValid : Bool
  dataValid : Bool
  waiting : Bool
  error : Option String
  deriving DecidableEq, Repr

/-- What `this.refs.data.getValue()` returns, as far as `handleSubmit` reads it. -/
structure PublicationDataValue where
  publicationType : String
  disambiguation : JPrim
  annotation : JPrim
  identifiers : List JPrim
  deriving DecidableEq, Repr

/-- The child components and props the form methods read: the `valid()` and
`getValue()` results of the step components, the revision note, the
`submissionUrl` prop and the built-in `parseInt(_, 10)`. -/
structure FormRefs where
  aliasesValid : Bool
  dataValid : Bool
  aliasesValue : List JPrim
  dataValue : PublicationDataValue
  revisionNote : JPrim
  submissionUrl : String
  parseInt10 : String → JPrim

/-- The payload `data` posted by `handleSubmit`. -/
structure SubmissionData where
  aliases : List JPrim
  publicationTypeId : JPrim
  disambiguation : JPrim
  annotation : JPrim
  identifiers : List JPrim
  note : JPrim
  deriving DecidableEq, Repr

/-- A request `request.post(url).send(data)`. -/
structure PostRequest where
  url : String
  data : SubmissionData
  deriving DecidableEq, Repr

/-- `getInitialState()`. -/
def getInitialState : FormState :=
  { tab := 1, aliasesValid := true, dataValid := true, waiting := false, error := none }

/-- `setTab(tab)`. -/
def setTab (refs : FormRefs) (state : FormState) (tab : Int) : FormState :=
  { state with tab := tab, aliasesValid := refs.aliasesValid, dataValid := refs.dataValid }

/-- `backClick()`. -/
def backClick (refs : FormRefs) (state : FormState) : FormState :=
  setTab refs state (state.tab - 1)

/-- `nextClick()`. -/
def nextClick (refs : FormRefs) (state : FormState) : FormState :=
  setTab refs state (state.tab + 1)

/-- `handleSubmit(evt)`: the next state and the request issued, if any. -/
def handleSubmit (refs : FormRefs) (state : FormState) : FormState × Option PostRequest :=
  if !(state.aliasesValid && state.dataValid) then
    (state, none)
  else
    let aliasData := refs.aliasesValue
    let publicationData := refs.dataValue
    let revisionNote := refs.revisionNote
    let data : SubmissionData :=
      { aliases := aliasData
        publicationTypeId := refs.parseInt10 publicationData.publicationType
        disambiguation := publicationData.disambiguation
        annotation := publicationData.annotation
        identifiers := publicationData.identifiers
        note := revisionNote }
    ({ state with waiting := true }, some { url := refs.submissionUrl, data := data })

/-- The `.catch((error) => this.setState({error}))` handler. -/
def onSubmitError (state : FormState) (error : String) : FormState :=
  { state with error := some error }

/-- What `render()` derives from the state: the spinner, the active tab, the
two warning icons, the visibility of each step and the `submitDisabled` prop of
the revision-note step. -/
structure FormView where
  loadingElement : Bool
  activeKey : Int
  aliasesInvalidIcon : Bool
  dataInvalidIcon : Bool
  aliasesVisible : Bool
  dataVisible : Bool
  revisionVisible : Bool
  submitDisabled : Bool
  deriving DecidableEq, Repr

/-- `render()`. -/
def render (state : FormState) : FormView :=
  let submitEnabled := state.aliasesValid && state.dataValid
  let loadingElement := state.waiting
  { loadingElement := loadingElement
    activeKey := state.tab
    aliasesInvalidIcon := !state.aliasesValid
    dataInvalidIcon := !state.dataValid
    aliasesVisible := decide (state.tab = 1)
    dataVisible := decide (state.tab = 2)
    revisionVisible := decide (state.tab = 3)
    submitDisabled := !submitEnabled }

/-! ### Tab navigation of the publication form -/

/-- What `render()` wires into one step component: its `visible` prop and
whether it receives the `backClick` and `nextClick` callbacks. -/
structure StepWiring where
  visible : Bool
  hasBackClick : Bool
  hasNextClick : Bool
  deriving DecidableEq, Repr

/-- The three step components of `render()`, in order: `Aliases` (next only,
visible on tab 1), `PublicationData` (back and next, visible on tab 2) and
`RevisionNote` (back only, visible on tab 3). -/
def renderSteps (state : FormState) : List StepWiring :=
  [ { visible := decide (state.tab = 1), hasBackClick := false, hasNextClick := true },
    { visible := decide (state.tab = 2), hasBackClick := true, hasNextClick := true },
    { visible := decide (state.tab = 3), hasBackClick := true, hasNextClick := false } ]

/-- The `eventKey`s of the three `NavItem`s. -/
def navEventKeys : List Int := [1, 2, 3]

/-- A step component is hidden, not unmounted, while its `visible` prop is
false, so its buttons can be pressed only while it is visible: "next" is
available when a visible step holds the `nextClick` callback. -/
def nextAvailable (state : FormState) : Bool :=
  (renderSteps state).any (fun step => step.visible && step.hasNextClick)

/-- "Back" is available when a visible step holds the `backClick` callback. -/
def backAvailable (state : FormState) : Bool :=
  (renderSteps state).any (fun step => step.visible && step.hasBackClick)

/-- The events the form reacts to: the next and back buttons, the selection of
a tab in the `Nav`, a submission, and the failure of a submission request. -/
inductive FormAction where
  | next
  | back
  | select (eventKey : Int)
  | submit
  | submitError (error : String)
  deriving DecidableEq, Repr

/-- Whether the rendered form offers the action in the given state. -/
def FormAction.enabled (state : FormState) : FormAction → Bool
  | .next => nextAvailable state
  | .back => backAvailable state
  | .select eventKey => decide (eventKey ∈ navEventKeys)
  | .submit => true
  | .submitError _ => true

/-- The handler the form runs for an action. -/
def formStep (refs : FormRefs) (state : FormState) : FormAction → FormState
  | .next => nextClick refs state
  | .back => backClick refs state
  | .select eventKey => setTab refs state eventKey
  | .submit => (handleSubmit refs state).1
  | .submitError error => onSubmitError state error

/-- Runs a sequence of actions, each with the child components as they stand
at that moment; `none` when an action is not offered. -/
def runActions (state : FormState) : List (FormRefs × FormAction) → Option FormState
  | [] => some state
  | (refs, action) :: rest =>
    if action.enabled state then runActions (formStep refs state action) rest else none

/-- Sample child components: both steps valid. -/
def sampleRefs : FormRefs :=
  { aliasesValid := true
    dataValid := true
    aliasesValue := []
    dataValue := { publicationType := "1", disambiguation := .null, annotation := .null,
                   identifiers := [] }
    revisionNote := .str "note"
    submissionUrl := "/publication/create/handler"
    parseInt10 := fun _ => .num 1 }

/-! # Theorems -/

/-! ### Lemmas on the set of types on an entity -/

theorem JSet.mem_add (s : List JPrim) (v w : JPrim) :
    w ∈ JSet.add s v ↔ w ∈ s ∨ w = v := by
  unfold JSet.add
  split
  · constructor
    · intro h; exact Or.inl h
    · rintro (h | h)
      · exact h
      · subst h; assumption
  · simp

theorem mem_foldl_add (identifiers : List Identifier) (acc : List JPrim) (w : JPrim) :
    w ∈ identifiers.foldl (fun s i => JSet.add s i.type.id) acc ↔
      w ∈ acc ∨ ∃ i ∈ identifiers, i.type.id = w := by
  induction identifiers generalizing acc with
  | nil => simp
  | cons i rest ih =>
    simp only [List.foldl_cons, ih, JSet.mem_add, List.mem_cons, exists_eq_or_imp]
    constructor
    · rintro ((h | h) | h)
      · exact Or.inl h
      · exact Or.inr (Or.inl h.symm)
      · exact Or.inr (Or.inr h)
    · rintro (h | h | h)
      · exact Or.inl (Or.inl h)
      · exact Or.inl (Or.inr h.symm)
      · exact Or.inr h

theorem mem_collectTypesOnEntity (identifiers : List Identifier) (w : JPrim) :
    w ∈ collectTypesOnEntity identifiers ↔ ∃ i ∈ identifiers, i.type.id = w := by
  simp [collectTypesOnEntity, mem_foldl_add]

/-! ### C1 - C3 -/

/-- C1: for an entity whose identifier set holds at least one identifier,
`filterIdentifierTypesByEntity` is exactly `identifierTypes` filtered (order and
multiplicity kept) by "the type's entityType equals the entity's type, or the
type's id is the type id of some identifier on the entity". -/
theorem filterIdentifierTypesByEntity_eq_filter_union
    (identifierTypes : List IdentifierType) (entity : Entity) (identifierSet : IdentifierSet)
    (hset : entity.identifierSet = some identifierSet)
    (hlen : 1 ≤ identifierSet.identifiers.length) :
    filterIdentifierTypesByEntity identifierTypes entity =
      identifierTypes.filter (fun type =>
        decide (type.entityType = entity.type ∨
          ∃ identifier ∈ identifierSet.identifiers, identifier.type.id = type.id)) := by
  unfold filterIdentifierTypesByEntity
  rw [hset]
  simp only [show ¬ identifierSet.identifiers.length < 1 by omega, if_false]
  apply List.filter_congr
  intro type _
  simp [JSet.has, mem_collectTypesOnEntity]

theorem filterIdentifierTypesByEntity_eq_filter_union_witness :
    (Entity.mk (.str "Work")
        (some ⟨[⟨⟨.num 7, .str "Edition"⟩⟩]⟩)).identifierSet
        = some ⟨[⟨⟨.num 7, .str "Edition"⟩⟩]⟩ ∧
    filterIdentifierTypesByEntity
        [⟨.num 1, .str "Work"⟩, ⟨.num 7, .str "Edition"⟩, ⟨.num 9, .str "Author"⟩]
        (Entity.mk (.str "Work") (some ⟨[⟨⟨.num 7, .str "Edition"⟩⟩]⟩)) =
      [⟨.num 1, .str "Work"⟩, ⟨.num 7, .str "Edition"⟩] :=
  ⟨rfl, by
    rw [filterIdentifierTypesByEntity_eq_filter_union _ _ ⟨[⟨⟨.num 7, .str "Edition"⟩⟩]⟩ rfl
      (by decide)]
    decide⟩

/-- C2: for an entity with no identifiers (identifier set missing, or its list
of identifiers empty), `filterIdentifierTypesByEntity` equals
`filterIdentifierTypesByEntityType` at the entity's type, that is, exactly the
types whose entityType equals the entity's type. -/
theorem filterIdentifierTypesByEntity_no_identifiers
    (identifierTypes : List IdentifierType) (entity : Entity)
    (hnone : entity.identifierSet = none ∨
      ∃ identifierSet, entity.identifierSet = some identifierSet ∧
        identifierSet.identifiers = []) :
    filterIdentifierTypesByEntity identifierTypes entity =
        filterIdentifierTypesByEntityType identifierTypes entity.type ∧
      filterIdentifierTypesByEntity identifierTypes entity =
        identifierTypes.filter (fun type => decide (type.entityType = entity.type)) := by
  have key : filterIdentifierTypesByEntity identifierTypes entity =
      filterIdentifierTypesByEntityType identifierTypes entity.type := by
    unfold filterIdentifierTypesByEntity
    rcases hnone with h | ⟨identifierSet, h, hempty⟩
    · rw [h]
    · rw [h]
      simp [hempty]
  exact ⟨key, by rw [key]; rfl⟩

theorem filterIdentifierTypesByEntity_no_identifiers_witness :
    filterIdentifierTypesByEntity
        [⟨.num 1, .str "Work"⟩, ⟨.num 7, .str "Edition"⟩, ⟨.num 2, .str "Work"⟩]
        (Entity.mk (.str "Work") (some ⟨[]⟩)) =
      [⟨.num 1, .str "Work"⟩, ⟨.num 2, .str "Work"⟩] :=
  (filterIdentifierTypesByEntity_no_identifiers
    [⟨.num 1, .str "Work"⟩, ⟨.num 7, .str "Edition"⟩, ⟨.num 2, .str "Work"⟩]
    (Entity.mk (.str "Work") (some ⟨[]⟩)) (Or.inr ⟨⟨[]⟩, rfl, rfl⟩)).2.trans (by decide)

/-- C3, as stated, fails: with an empty list of identifier types, an entity of
type Work holding an identifier of the Edition type 7 gets an empty result,
which does not include that type. -/
theorem filterIdentifierTypesByEntity_includes_counterexample :
    ¬ (∀ (identifierTypes : List IdentifierType) (entity : Entity) (T : IdentifierType),
        (∃ identifierSet, entity.identifierSet = some identifierSet ∧
          ∃ identifier ∈ identifierSet.identifiers, identifier.type = T) →
        T.entityType ≠ entity.type →
        T ∈ filterIdentifierTypesByEntity identifierTypes entity) := by
  intro h
  have := h [] (Entity.mk (.str "Work") (some ⟨[⟨⟨.num 7, .str "Edition"⟩⟩]⟩))
    ⟨.num 7, .str "Edition"⟩ ⟨_, rfl, _, List.mem_singleton.mpr rfl, rfl⟩ (by decide)
  simp [filterIdentifierTypesByEntity] at this

/-- C3, amended: when the entity has an identifier whose type id is the id of
T, T's entityType does not match the entity's type, and T occurs in
`identifierTypes`, the list returned by `filterIdentifierTypesByEntity`
includes T. -/
theorem filterIdentifierTypesByEntity_includes_type_on_entity
    (identifierTypes : List IdentifierType) (entity : Entity) (identifierSet : IdentifierSet)
    (T : IdentifierType)
    (hset : entity.identifierSet = some identifierSet)
    (hon : ∃ identifier ∈ identifierSet.identifiers, identifier.type.id = T.id)
    (_hmismatch : T.entityType ≠ entity.type)
    (hmem : T ∈ identifierTypes) :
    T ∈ filterIdentifierTypesByEntity identifierTypes entity := by
  obtain ⟨identifier, hi, hid⟩ := hon
  have hlen : 1 ≤ identifierSet.identifiers.length := by
    cases hl : identifierSet.identifiers with
    | nil => rw [hl] at hi; cases hi
    | cons _ _ => simp
  unfold filterIdentifierTypesByEntity
  rw [hset]
  simp only [show ¬ identifierSet.identifiers.length < 1 by omega, if_false]
  refine List.mem_filter.mpr ⟨hmem, ?_⟩
  simp only [Bool.or_eq_true, JSet.has, decide_eq_true_eq, mem_collectTypesOnEntity]
  exact Or.inr ⟨identifier, hi, hid⟩

theorem filterIdentifierTypesByEntity_includes_type_on_entity_witness :
    (⟨.num 7, .str "Edition"⟩ : IdentifierType) ∈
      filterIdentifierTypesByEntity [⟨.num 1, .str "Work"⟩, ⟨.num 7, .str "Edition"⟩]
        (Entity.mk (.str "Work") (some ⟨[⟨⟨.num 7, .str "Edition"⟩⟩]⟩)) :=
  filterIdentifierTypesByEntity_includes_type_on_entity
    [⟨.num 1, .str "Work"⟩, ⟨.num 7, .str "Edition"⟩]
    (Entity.mk (.str "Work") (some ⟨[⟨⟨.num 7, .str "Edition"⟩⟩]⟩))
    ⟨[⟨⟨.num 7, .str "Edition"⟩⟩]⟩ ⟨.num 7, .str "Edition"⟩ rfl
    ⟨_, List.mem_singleton.mpr rfl, rfl⟩ (by decide) (by decide)

/-! ### C4 - C6 -/

/-- C4: `createEntityPageTitle` returns the fallback when the entity is null,
has no defaultAlias, or its defaultAlias name is absent or empty, and otherwise
returns the template applied to the object holding that name.  An entity named
"Foo" with the "Work: " template gives "Work: Foo"; a null entity gives the
fallback. -/
theorem createEntityPageTitle_spec (entity : Option TitledEntity) (titleForUnnamed : String)
    (templateForNamed : NamedValues → String) :
    ((entity = none ∨
        (∃ e, entity = some e ∧ e.defaultAlias = none) ∨
        (∃ e a, entity = some e ∧ e.defaultAlias = some a ∧
          (a.name = none ∨ a.name = some ""))) →
      createEntityPageTitle entity titleForUnnamed templateForNamed = titleForUnnamed) ∧
    (∀ e a name, entity = some e → e.defaultAlias = some a → a.name = some name → name ≠ "" →
      createEntityPageTitle entity titleForUnnamed templateForNamed =
        templateForNamed { name := name }) ∧
    createEntityPageTitle (some ⟨some ⟨some "Foo"⟩⟩) titleForUnnamed workTitleTemplate
      = "Work: Foo" ∧
    createEntityPageTitle none titleForUnnamed templateForNamed = titleForUnnamed := by
  refine ⟨?_, ?_, ?_, rfl⟩
  · rintro (h | ⟨e, h, hd⟩ | ⟨e, a, h, hd, hn | hn⟩)
    · subst h; rfl
    · subst h; simp [createEntityPageTitle, hd]
    · subst h; simp [createEntityPageTitle, hd, hn]
    · subst h; simp [createEntityPageTitle, hd, hn]
  · intro e a name h hd hn hne
    subst h
    simp [createEntityPageTitle, hd, hn, hne]
  · have h : workTitleTemplate { name := "Foo" } = "Work: Foo" := by decide
    simpa [createEntityPageTitle] using h

theorem createEntityPageTitle_spec_witness :
    createEntityPageTitle (some ⟨some ⟨some ""⟩⟩) "Untitled" workTitleTemplate = "Untitled" ∧
    createEntityPageTitle (some ⟨some ⟨some "Bar"⟩⟩) "Untitled" workTitleTemplate
      = workTitleTemplate { name := "Bar" } :=
  ⟨(createEntityPageTitle_spec (some ⟨some ⟨some ""⟩⟩) "Untitled" workTitleTemplate).1
      (Or.inr (Or.inr ⟨_, _, rfl, rfl, Or.inr rfl⟩)),
   (createEntityPageTitle_spec (some ⟨some ⟨some "Bar"⟩⟩) "Untitled" workTitleTemplate).2.1
      _ _ _ rfl rfl rfl (by decide)⟩

theorem joinEmpty_append (a b : List JPrim) :
    joinEmpty (a ++ b) = joinEmpty a ++ joinEmpty b := by
  induction a with
  | nil => simp [joinEmpty]
  | cons x rest ih => simp [joinEmpty, ih, String.append_assoc]

theorem joinElement_eq_renderValue (v : JPrim) : joinElement v = renderValue v := by
  cases v with
  | undefined => rfl
  | null => rfl
  | bool b => cases b <;> rfl
  | num n => simp [joinElement, renderValue, JPrim.toStr]
  | str s => simp [joinElement, renderValue, JPrim.toStr]

theorem renderValue_eq_toStr (v : JPrim) (hu : v ≠ .undefined) (hn : v ≠ .null) :
    renderValue v = v.toStr := by
  simp [renderValue, hu, hn]

theorem templateLoop_join (strings : List String) (values : String → JPrim)
    (keys : List String) :
    ∀ (i : Nat) (result : List JPrim) (tail : List String),
      strings.drop (i + 1) = tail → tail.length = keys.length →
      joinEmpty (templateLoop strings values i keys result) =
        interleave (joinEmpty result) ((keys.map (fun k => renderValue (values k))).zip tail) := by
  induction keys with
  | nil =>
    intro i result tail _ hlen
    cases tail with
    | nil => simp [templateLoop, interleave]
    | cons _ _ => simp at hlen
  | cons key keys ih =>
    intro i result tail hdrop hlen
    cases tail with
    | nil => simp at hlen
    | cons t tail =>
      have hget : arrayGet strings (i + 1) = .str t := by
        have h0 : (strings.drop (i + 1))[0]? = some t := by rw [hdrop]; simp
        rw [List.getElem?_drop] at h0
        simp only [arrayGet, Nat.add_zero] at h0 ⊢
        rw [h0]
      have hdrop2 : strings.drop (i + 1 + 1) = tail := by
        have : (strings.drop (i + 1)).drop 1 = tail := by rw [hdrop]; rfl
        rw [List.drop_drop] at this
        rw [← this]
      simp only [templateLoop]
      rw [ih (i + 1) _ tail hdrop2 (by simpa using hlen)]
      show _ = interleave (joinEmpty result ++ renderValue (values key) ++ t)
        ((keys.map (fun k => renderValue (values k))).zip tail)
      congr 1
      have hstr : renderValue (.str t) = t := by simp [renderValue, JPrim.toStr]
      simp only [joinEmpty_append, joinEmpty, hget, joinElement_eq_renderValue, hstr,
        String.append_assoc, String.append_empty]

/-- C5, as stated, fails: with the literals "Hello, " and "!" and the key
"name", a values object defining `name` as `null` gives "Hello, !", not the
interleaving "Hello, null!" of the literals with the value. -/
theorem template_null_value_dropped :
    ¬ (∀ (s0 : String) (rest keys : List String) (values : String → JPrim),
        rest.length = keys.length →
        (∀ k ∈ keys, values k ≠ .undefined) →
        template (s0 :: rest) keys values =
          interleave s0 ((keys.map (fun k => (values k).toStr)).zip rest)) := by
  intro h
  have h1 := h "Hello, " ["!"] ["name"] nullNameValues rfl (by
    intro k hk
    rw [List.mem_singleton.mp hk]
    decide)
  have h2 : template ["Hello, ", "!"] ["name"] nullNameValues = "Hello, !" := by decide
  have h3 : interleave "Hello, " ((["name"].map (fun k => (nullNameValues k).toStr)).zip ["!"])
      = "Hello, null!" := by decide
  rw [h2, h3] at h1
  exact absurd h1 (by decide)

/-- C5, amended: for literals s0, s1, ..., sn and keys k1, ..., kn and every
values object, `template(strings, k1..kn)(values)` is the interleaving
s0 ++ r(values[k1]) ++ s1 ++ ... ++ r(values[kn]) ++ sn, where r leaves nothing
for `undefined` and `null` and the string form for any other value; for values
that are neither `undefined` nor `null` this is the interleaving of the
literals with the values' string forms.  The literals "Hello, " and "!" with
key "name" applied to the object with name "World" give "Hello, World!". -/
theorem template_interleaves_rendered (s0 : String) (rest keys : List String)
    (values : String → JPrim) (hlen : rest.length = keys.length) :
    template (s0 :: rest) keys values =
      interleave s0 ((keys.map (fun k => renderValue (values k))).zip rest) ∧
    ((∀ k ∈ keys, values k ≠ .undefined ∧ values k ≠ .null) →
      template (s0 :: rest) keys values =
        interleave s0 ((keys.map (fun k => (values k).toStr)).zip rest)) ∧
    template ["Hello, ", "!"] ["name"] (NamedValues.read { name := "World" })
      = "Hello, World!" := by
  have hmain : template (s0 :: rest) keys values =
      interleave s0 ((keys.map (fun k => renderValue (values k))).zip rest) := by
    unfold template
    rw [templateLoop_join (s0 :: rest) values keys 0 _ rest rfl hlen]
    simp [joinEmpty, joinElement, arrayGet]
  refine ⟨hmain, ?_, by decide⟩
  intro hdef
  rw [hmain]
  congr 2
  apply List.map_congr_left
  intro k hk
  exact renderValue_eq_toStr _ (hdef k hk).1 (hdef k hk).2

theorem template_interleaves_rendered_witness :
    template ["a", "b", "c"] ["x", "y"]
        (fun k => if k = "x" then .num 1 else if k = "y" then .bool true else .undefined)
      = "a1btruec" ∧
    template ["Hello, ", "!"] ["name"] nullNameValues = "Hello, !" :=
  ⟨((template_interleaves_rendered "a" ["b", "c"] ["x", "y"]
      (fun k => if k = "x" then .num 1 else if k = "y" then .bool true else .undefined)
      rfl).2.1 (by decide)).trans (by decide),
   (template_interleaves_rendered "Hello, " ["!"] ["name"] nullNameValues rfl).1.trans
      (by decide)⟩

/-- Away from the names inherited from `Object.prototype`, the lookup throws
the "Unrecognized entity type" error exactly when the name maps to no entity
model, and returns the mapped model otherwise. -/
theorem getEntityModelByType_off_prototype {M : Type} (orm : OrmModels M) (type : String)
    (hproto : type ∉ objectPrototypeKeys) :
    (entityModelNamed orm type = none →
      getEntityModelByType orm type =
        .error ("Unrecognized entity type: '" ++ type ++ "'")) ∧
    (∀ m, entityModelNamed orm type = some m →
      getEntityModelByType orm type = .ok (.model m)) := by
  unfold getEntityModelByType entityModelNamed EntityModels.read getEntityModels
  simp only []
  constructor
  · intro h
    split_ifs at h ⊢ <;> simp_all [PropertyRead.ofOwn, PropertyRead.truthy]
  · intro m h
    split_ifs at h ⊢ <;> simp_all [PropertyRead.ofOwn, PropertyRead.truthy]

/-- C6 fails at the type name "constructor": it maps to no entity model, yet
`getEntityModelByType` throws nothing and returns the member inherited from
`Object.prototype`, whatever the ORM defines. -/
theorem getEntityModelByType_constructor_not_rejected {M : Type} (orm : OrmModels M) :
    entityModelNamed orm "constructor" = none ∧
    getEntityModelByType orm "constructor" = .ok (.inherited "constructor") ∧
    getEntityModelByType orm "constructor" ≠
      .error ("Unrecognized entity type: '" ++ "constructor" ++ "'") := by
  refine ⟨?_, ?_, ?_⟩
  · simp [entityModelNamed]
  · simp [getEntityModelByType, EntityModels.read, objectPrototypeKeys, PropertyRead.truthy]
  · simp [getEntityModelByType, EntityModels.read, objectPrototypeKeys, PropertyRead.truthy]

/-! ### C7 - C8: the publication form -/

/-- C7: after any `setTab` at which the aliases step reports validity a and
the data step reports validity d, the `submitDisabled` flag handed to the
revision-note step is not (a and d); `handleSubmit` sends no request when the
flag is set and sends one when it is clear.  Validities true, false disable
the submit; true, true enable it. -/
theorem setTab_submit_enabled_iff_both_valid (refs later : FormRefs) (state : FormState)
    (tab : Int) :
    (render (setTab refs state tab)).submitDisabled = !(refs.aliasesValid && refs.dataValid) ∧
    ((render (setTab refs state tab)).submitDisabled = true →
      (handleSubmit later (setTab refs state tab)).2 = none ∧
      (handleSubmit later (setTab refs state tab)).1 = setTab refs state tab) ∧
    ((render (setTab refs state tab)).submitDisabled = false →
      (handleSubmit later (setTab refs state tab)).2.isSome = true) ∧
    (refs.aliasesValid = true → refs.dataValid = false →
      (render (setTab refs state tab)).submitDisabled = true) ∧
    (refs.aliasesValid = true → refs.dataValid = true →
      (render (setTab refs state tab)).submitDisabled = false) := by
  cases ha : refs.aliasesValid <;> cases hd : refs.dataValid <;>
    simp [render, setTab, handleSubmit, ha, hd]

theorem setTab_submit_enabled_iff_both_valid_witness :
    (render (setTab ⟨true, false, [], ⟨"1", .null, .null, []⟩, .str "note", "/submit",
        fun _ => .num 1⟩ getInitialState 3)).submitDisabled = true ∧
    (handleSubmit ⟨true, true, [], ⟨"1", .null, .null, []⟩, .str "note", "/submit",
        fun _ => .num 1⟩
      (setTab ⟨true, true, [], ⟨"1", .null, .null, []⟩, .str "note", "/submit",
        fun _ => .num 1⟩ getInitialState 3)).2.isSome = true :=
  ⟨(setTab_submit_enabled_iff_both_valid
      ⟨true, false, [], ⟨"1", .null, .null, []⟩, .str "note", "/submit", fun _ => .num 1⟩
      ⟨true, false, [], ⟨"1", .null, .null, []⟩, .str "note", "/submit", fun _ => .num 1⟩
      getInitialState 3).2.2.2.1 rfl rfl,
   (setTab_submit_enabled_iff_both_valid
      ⟨true, true, [], ⟨"1", .null, .null, []⟩, .str "note", "/submit", fun _ => .num 1⟩
      ⟨true, true, [], ⟨"1", .null, .null, []⟩, .str "note", "/submit", fun _ => .num 1⟩
      getInitialState 3).2.2.1
      ((setTab_submit_enabled_iff_both_valid
        ⟨true, true, [], ⟨"1", .null, .null, []⟩, .str "note", "/submit", fun _ => .num 1⟩
        ⟨true, true, [], ⟨"1", .null, .null, []⟩, .str "note", "/submit", fun _ => .num 1⟩
        getInitialState 3).2.2.2.2 rfl rfl)⟩

/-- C8, as stated, fails: the state reached from the initial state by one
`handleSubmit` has `waiting` set, yet its submit control is rendered enabled and
a further `handleSubmit` issues a second request. -/
theorem waiting_does_not_disable_submission :
    ¬ (∀ (refs : FormRefs) (state : FormState), state.waiting = true →
        (render state).submitDisabled = true ∧ (handleSubmit refs state).2 = none) := by
  intro h
  have := h ⟨true, true, [], ⟨"1", .null, .null, []⟩, .str "note", "/submit", fun _ => .num 1⟩
    (handleSubmit ⟨true, true, [], ⟨"1", .null, .null, []⟩, .str "note", "/submit",
      fun _ => .num 1⟩ getInitialState).1 rfl
  simp [render, handleSubmit, getInitialState] at this

/-- C8, amended: in every state in which `waiting` is true the loading
indicator is rendered, but submission is disabled only by step validity: the
`submitDisabled` flag is not (aliasesValid and dataValid), and a further
`handleSubmit` issues a request exactly when both flags hold, leaving `waiting`
set. -/
theorem waiting_submission_gated_by_validity_only (refs : FormRefs) (state : FormState)
    (hw : state.waiting = true) :
    (render state).loadingElement = true ∧
    (render state).submitDisabled = !(state.aliasesValid && state.dataValid) ∧
    (handleSubmit refs state).2.isSome = (state.aliasesValid && state.dataValid) ∧
    (handleSubmit refs state).1.waiting = true := by
  cases ha : state.aliasesValid <;> cases hd : state.dataValid <;>
    simp [render, handleSubmit, ha, hd, hw]

theorem waiting_submission_gated_by_validity_only_witness :
    (render ⟨3, true, true, true, none⟩).submitDisabled = false ∧
    (handleSubmit ⟨true, true, [], ⟨"1", .null, .null, []⟩, .str "note", "/submit",
      fun _ => .num 1⟩ ⟨3, true, true, true, none⟩).2.isSome = true :=
  ⟨(waiting_submission_gated_by_validity_only
      ⟨true, true, [], ⟨"1", .null, .null, []⟩, .str "note", "/submit", fun _ => .num 1⟩
      ⟨3, true, true, true, none⟩ rfl).2.1,
   (waiting_submission_gated_by_validity_only
      ⟨true, true, [], ⟨"1", .null, .null, []⟩, .str "note", "/submit", fun _ => .num 1⟩
      ⟨3, true, true, true, none⟩ rfl).2.2.1⟩

/-! ### Dictionaries: reads after writes -/

theorem Dict.hasKey_cons (kv : String × Json) (d : Dict) (key : String) :
    Dict.hasKey (kv :: d) key = ((kv.1 == key) || Dict.hasKey d key) := by
  simp [Dict.hasKey]

theorem Dict.hasKey_append (d e : Dict) (key : String) :
    Dict.hasKey (d ++ e) key = (d.hasKey key || e.hasKey key) := by
  simp [Dict.hasKey]

theorem Dict.hasKey_set (d : Dict) (k : String) (v : Json) (key : String) :
    (d.set k v).hasKey key = (d.hasKey key || (k == key)) := by
  unfold Dict.set
  split
  · rename_i hk
    induction d with
    | nil => simp [Dict.hasKey] at hk
    | cons kv rest ih =>
      by_cases h1 : kv.1 = k
      · by_cases hr : Dict.hasKey rest k = true
        · have := ih hr
          simp only [List.map_cons, Dict.hasKey_cons, h1, beq_self_eq_true, if_true, this]
          cases Dict.hasKey rest key <;> simp
        · have hmap : List.map (fun kv => if (kv.1 == k) = true then (k, v) else kv) rest
              = rest := by
            have hno : ∀ x ∈ rest, ¬ x.1 = k := by
              intro x hx hxk
              apply hr
              simp only [Dict.hasKey, List.any_eq_true, beq_iff_eq]
              exact ⟨x, hx, hxk⟩
            calc List.map (fun kv => if (kv.1 == k) = true then (k, v) else kv) rest
                = List.map id rest := by
                  apply List.map_congr_left
                  intro x hx
                  simp [hno x hx]
              _ = rest := List.map_id rest
          simp only [List.map_cons, Dict.hasKey_cons, h1, beq_self_eq_true, if_true, hmap]
          by_cases hkk : k = key
          · simp [hkk]
          · simp [hkk]
      · have hr : Dict.hasKey rest k = true := by
          simpa [Dict.hasKey_cons, h1] using hk
        have := ih hr
        simp only [List.map_cons, Dict.hasKey_cons, this]
        simp only [beq_iff_eq, h1, if_false]
        cases (kv.1 == key) <;> simp
  · simp [Dict.hasKey_append, Dict.hasKey]

theorem Dict.hasKey_delete (d : Dict) (k key : String) :
    (d.delete k).hasKey key = (d.hasKey key && !(k == key)) := by
  induction d with
  | nil => simp [Dict.delete, Dict.hasKey]
  | cons kv rest ih =>
    unfold Dict.delete at ih ⊢
    by_cases h1 : kv.1 = k
    · subst h1
      simp only [List.filter_cons, beq_self_eq_true, Bool.not_true, Bool.false_eq_true, if_false,
        ih, Dict.hasKey_cons]
      cases hkey : (kv.1 == key) <;> simp
    · have hb : (!(kv.1 == k)) = true := by simp [h1]
      simp only [List.filter_cons, hb, if_true, Dict.hasKey_cons, ih]
      by_cases h2 : kv.1 = key
      · have h3 : (k == key) = false := by
          simp only [beq_eq_false_iff_ne, ne_eq]
          exact fun e => h1 (h2.trans e.symm)
        have h4 : (kv.1 == key) = true := by simp [h2]
        simp [h3, h4]
      · have h4 : (kv.1 == key) = false := by simp [h2]
        simp [h4]

theorem Dict.hasKey_spread (target source : Dict) (key : String) :
    (Dict.spread target source).hasKey key = (target.hasKey key || source.hasKey key) := by
  induction source generalizing target with
  | nil => simp [Dict.spread, Dict.hasKey]
  | cons kv rest ih =>
    have : Dict.spread target (kv :: rest) = Dict.spread (target.set kv.1 kv.2) rest := rfl
    rw [this, ih, Dict.hasKey_set, Dict.hasKey_cons, Bool.or_assoc]

theorem Dict.find?_isSome (d : Dict) (key : String) :
    (d.find? key).isSome = d.hasKey key := by
  induction d with
  | nil => rfl
  | cons kv rest ih =>
    rw [Dict.hasKey_cons, ← ih]
    simp only [Dict.find?]
    cases Dict.find? rest key with
    | some w => simp
    | none => cases (kv.1 == key) <;> simp

theorem Dict.get_of_not_hasKey (d : Dict) (key : String) (h : d.hasKey key = false) :
    d.get key = Json.undefined := by
  have hnone : d.find? key = none := by
    rw [← Dict.find?_isSome] at h
    cases hf : d.find? key with
    | none => rfl
    | some w => rw [hf] at h; cases h
  simp [Dict.get, hnone]

theorem Dict.find?_append_singleton (d : Dict) (k : String) (v : Json) (key : String) :
    Dict.find? (d ++ [(k, v)]) key = if k = key then some v else d.find? key := by
  induction d with
  | nil =>
    by_cases h : k = key
    · simp [Dict.find?, h]
    · simp [Dict.find?, h]
  | cons kv rest ih =>
    have hc : Dict.find? (kv :: rest ++ [(k, v)]) key =
        (match Dict.find? (rest ++ [(k, v)]) key with
          | some w => some w
          | none => if kv.1 == key then some kv.2 else none) := rfl
    rw [hc, ih]
    by_cases h : k = key
    · simp [h]
    · simp only [h, if_false]
      rfl

theorem Dict.find?_map_set (d : Dict) (k : String) (v : Json) (key : String) :
    Dict.find? (d.map (fun kv => if kv.1 == k then (k, v) else kv)) key =
      if k = key then (if d.hasKey k then some v else none) else d.find? key := by
  induction d with
  | nil => simp [Dict.find?, Dict.hasKey]
  | cons kv rest ih =>
    simp only [List.map_cons, Dict.find?, ih, Dict.hasKey_cons]
    by_cases hk : k = key
    · subst hk
      simp only [if_true]
      cases hr : Dict.hasKey rest k with
      | true => simp
      | false =>
        by_cases h1 : kv.1 = k
        · simp [h1]
        · have hb : (kv.1 == k) = false := by simp [h1]
          simp [hb]
    · simp only [hk, if_false]
      by_cases h1 : kv.1 = k
      · have hb : (k == key) = false := by simp [hk]
        have hb2 : (kv.1 == key) = false := by
          simp only [beq_eq_false_iff_ne, ne_eq]
          exact fun e => hk (h1.symm.trans e)
        simp [h1, hb, hb2]
      · have hb : (kv.1 == k) = false := by simp [h1]
        simp [hb]

theorem Dict.find?_set (d : Dict) (k : String) (v : Json) (key : String) :
    (d.set k v).find? key = if k = key then some v else d.find? key := by
  unfold Dict.set
  split
  · rename_i hk
    rw [Dict.find?_map_set, hk]
    simp
  · exact Dict.find?_append_singleton d k v key

theorem Dict.find?_delete (d : Dict) (k key : String) :
    (d.delete k).find? key = if k = key then none else d.find? key := by
  induction d with
  | nil => simp [Dict.delete, Dict.find?]
  | cons kv rest ih =>
    unfold Dict.delete at ih ⊢
    by_cases h1 : kv.1 = k
    · have hb : (!(kv.1 == k)) = false := by simp [h1]
      simp only [List.filter_cons, hb, Bool.false_eq_true, if_false, ih, Dict.find?]
      by_cases hk : k = key
      · simp [hk]
      · have hb2 : (kv.1 == key) = false := by
          simp only [beq_eq_false_iff_ne, ne_eq]
          exact fun e => hk (h1.symm.trans e)
        simp only [hk, if_false, hb2, Bool.false_eq_true]
        cases Dict.find? rest key <;> rfl
    · have hb : (!(kv.1 == k)) = true := by simp [h1]
      simp only [List.filter_cons, hb, if_true, Dict.find?, ih]
      by_cases hk : k = key
      · have hb2 : (kv.1 == key) = false := by
          simp only [beq_eq_false_iff_ne, ne_eq]
          exact fun e => h1 (e.trans hk.symm)
        simp [hk, hb2]
      · simp [hk]

theorem Dict.find?_spread (target source : Dict) (key : String) :
    (Dict.spread target source).find? key =
      match source.find? key with
      | some v => some v
      | none => target.find? key := by
  induction source generalizing target with
  | nil => rfl
  | cons kv rest ih =>
    have hs : Dict.spread target (kv :: rest) = Dict.spread (target.set kv.1 kv.2) rest := rfl
    rw [hs, ih, Dict.find?_set]
    simp only [Dict.find?]
    cases Dict.find? rest key with
    | some w => rfl
    | none =>
      by_cases h : kv.1 = key
      · simp [h]
      · simp [h]

theorem Dict.get_set (d : Dict) (k : String) (v : Json) (key : String) :
    (d.set k v).get key = if k = key then v else d.get key := by
  simp only [Dict.get, Dict.find?_set]
  by_cases h : k = key
  · simp [h]
  · simp [h]

theorem Dict.get_delete (d : Dict) (k key : String) :
    (d.delete k).get key = if k = key then Json.undefined else d.get key := by
  simp only [Dict.get, Dict.find?_delete]
  by_cases h : k = key
  · simp [h]
  · simp [h]

theorem Dict.get_spread (target source : Dict) (key : String) :
    (Dict.spread target source).get key =
      if source.hasKey key then source.get key else target.get key := by
  rw [← Dict.find?_isSome]
  simp only [Dict.get, Dict.find?_spread]
  cases source.find? key with
  | some w => simp
  | none => simp

theorem Dict.get_singleton (k : String) (v : Json) (key : String) :
    Dict.get [(k, v)] key = if k = key then v else Json.undefined := by
  by_cases h : k = key
  · simp [Dict.get, Dict.find?, h]
  · simp [Dict.get, Dict.find?, h]

theorem renameAuthor_hasKey (revision : Dict) (key : String) :
    (renameAuthor revision).hasKey key =
      ((revision.hasKey key || ("editor" == key)) && !("author" == key)) := by
  simp [renameAuthor, Dict.hasKey_delete, Dict.hasKey_set]

theorem renameAuthor_get (revision : Dict) (key : String) :
    (renameAuthor revision).get key =
      if "author" = key then Json.undefined
      else if "editor" = key then revision.get "author" else revision.get key := by
  simp only [renameAuthor, Dict.get_delete, Dict.get_set]

/-! ### The merged dictionary -/

theorem mergeRevision_hasKey (revisionId : Json) (revision aliasDict entityDict parentDict : Dict)
    (key : String) :
    (mergeRevision revisionId (renameAuthor revision) aliasDict entityDict parentDict).hasKey key =
      (("revisionId" == key) ||
        ((revision.hasKey key || ("editor" == key)) && !("author" == key)) ||
        aliasDict.hasKey key || entityDict.hasKey key || parentDict.hasKey key) := by
  simp only [mergeRevision, Dict.hasKey_spread, renameAuthor_hasKey, Dict.hasKey_cons]
  simp [Dict.hasKey]

theorem mergeRevision_get (revision aliasDict entityDict parentDict : Dict) (key : String) :
    (mergeRevision (revision.get "id") (renameAuthor revision) aliasDict entityDict
        parentDict).get key =
      mergedRead revision aliasDict entityDict parentDict key := by
  simp only [mergeRevision, mergedRead, Dict.get_spread, renameAuthor_hasKey, renameAuthor_get,
    Dict.get_singleton]
  by_cases hp : parentDict.hasKey key = true
  · simp [hp]
  · by_cases he : entityDict.hasKey key = true
    · simp [hp, he]
    · by_cases ha : aliasDict.hasKey key = true
      · simp [hp, he, ha]
      · simp only [hp, he, ha, Bool.false_eq_true, if_false]
        by_cases h1 : key = "editor"
        · subst h1
          simp
        · have h1b : ¬ "editor" = key := fun e => h1 e.symm
          by_cases h2 : key = "author"
          · subst h2
            simp
          · have h2b : ¬ "author" = key := fun e => h2 e.symm
            by_cases hr : revision.hasKey key = true
            · simp [h1, h1b, h2, h2b, hr]
            · by_cases h3 : key = "revisionId"
              · subst h3
                simp [hr]
              · have h3b : ¬ "revisionId" = key := fun e => h3 e.symm
                simp [h1, h1b, h2, h2b, hr, h3, h3b]

theorem getParentAlias_resolved (orm : RevisionOrm) (entityType bbid : Json)
    (queryRows : Option (List Dict))
    (h : orm.parentAliasRows entityType bbid = .ok queryRows) :
    ∃ parentAlias, getParentAlias orm entityType bbid = .ok parentAlias ∧
      dictOrEmpty parentAlias = parentAliasPart orm.camelCase queryRows := by
  unfold getParentAlias
  rw [h]
  cases queryRows with
  | none => exact ⟨none, rfl, rfl⟩
  | some rows => exact ⟨_, rfl, rfl⟩

theorem assembleRevision_resolved (orm : RevisionOrm) (revision modelJson : Dict)
    (aliasSet entity : Option Dict) (queryRows : Option (List Dict))
    (halias : orm.fetchAliasSet (modelAliasSetId modelJson) = .ok aliasSet)
    (hentity : orm.fetchEntity (modelBbid modelJson) = .ok entity)
    (hrows : orm.parentAliasRows ((dictOrEmpty entity).get "type")
      ((dictOrEmpty entity).get "bbid") = .ok queryRows) :
    assembleRevision orm revision modelJson =
      .ok (mergeRevision (revision.get "id") (renameAuthor revision) (dictOrEmpty aliasSet)
        (dictOrEmpty entity) (parentAliasPart orm.camelCase queryRows)) := by
  obtain ⟨parentAlias, hparent, hpart⟩ := getParentAlias_resolved orm _ _ queryRows hrows
  simp only [assembleRevision, halias, hentity, hparent, hpart]

/-! ### The probing loop -/

theorem getCompleteRevisionLoop_skip (orm : RevisionOrm) (revision : Dict)
    (pre rest : List RevisionModel)
    (hpre : ∀ M ∈ pre, orm.fetchRevision M (revision.get "id") = .ok none) :
    getCompleteRevisionLoop orm revision (pre ++ rest) =
      getCompleteRevisionLoop orm revision rest := by
  induction pre with
  | nil => rfl
  | cons M pre ih =>
    simp only [List.cons_append, getCompleteRevisionLoop, hpre M (List.mem_cons_self _ _)]
    exact ih (fun M' h => hpre M' (List.mem_cons_of_mem _ h))

theorem getCompleteRevisionLoop_first_hit (orm : RevisionOrm) (revision modelJson : Dict)
    (pre post : List RevisionModel) (Model : RevisionModel)
    (hpre : ∀ M ∈ pre, orm.fetchRevision M (revision.get "id") = .ok none)
    (hhit : orm.fetchRevision Model (revision.get "id") = .ok (some modelJson)) :
    getCompleteRevisionLoop orm revision (pre ++ Model :: post) =
      assembleRevision orm revision modelJson := by
  rw [getCompleteRevisionLoop_skip orm revision pre _ hpre]
  simp only [getCompleteRevisionLoop, hhit]

theorem getCompleteRevisionLoop_first_rejection (orm : RevisionOrm) (revision : Dict)
    (pre post : List RevisionModel) (Model : RevisionModel) (e : String)
    (hpre : ∀ M ∈ pre, orm.fetchRevision M (revision.get "id") = .ok none)
    (hrej : orm.fetchRevision Model (revision.get "id") = .error e) :
    getCompleteRevisionLoop orm revision (pre ++ Model :: post) = .error e := by
  rw [getCompleteRevisionLoop_skip orm revision pre _ hpre]
  simp only [getCompleteRevisionLoop, hrej]

theorem getCompleteRevision_of_only_hit (orm : RevisionOrm) (revision modelJson : Dict)
    (Model : RevisionModel)
    (hhit : orm.fetchRevision Model (revision.get "id") = .ok (some modelJson))
    (hothers : ∀ M, M ≠ Model → orm.fetchRevision M (revision.get "id") = .ok none) :
    getCompleteRevision revision orm = assembleRevision orm revision modelJson := by
  unfold getCompleteRevision getRevisionModels
  cases Model
  · exact getCompleteRevisionLoop_first_hit orm revision modelJson [] _ _
      (fun M h => by cases h) hhit
  · refine getCompleteRevisionLoop_first_hit orm revision modelJson
      [.AuthorRevision, .EditionGroupRevision] _ _ (fun M h => hothers M ?_) hhit
    rintro rfl; simp at h
  · refine getCompleteRevisionLoop_first_hit orm revision modelJson
      [.AuthorRevision] _ _ (fun M h => hothers M ?_) hhit
    rintro rfl; simp at h
  · refine getCompleteRevisionLoop_first_hit orm revision modelJson
      [.AuthorRevision, .EditionGroupRevision, .EditionRevision] _ _
      (fun M h => hothers M ?_) hhit
    rintro rfl; simp at h
  · refine getCompleteRevisionLoop_first_hit orm revision modelJson
      [.AuthorRevision, .EditionGroupRevision, .EditionRevision, .PublisherRevision] _ _
      (fun M h => hothers M ?_) hhit
    rintro rfl; simp at h

/-! ### C9 - C10: revision assembly -/

/-- C9, as stated, fails: a revision present in the edition subtype table
only, whose entity row carries a column named author, gets a result in which
the key author is present. -/
theorem getCompleteRevision_author_from_entity_row :
    ¬ (∀ (orm : RevisionOrm) (revision modelJson : Dict) (Model : RevisionModel),
        orm.fetchRevision Model (revision.get "id") = .ok (some modelJson) →
        (∀ M, M ≠ Model → orm.fetchRevision M (revision.get "id") = .ok none) →
        ∃ result, getCompleteRevision revision orm = .ok result ∧
          result.hasKey "author" = false ∧
          result.hasKey "editor" = true ∧
          result.get "editor" = revision.get "author") := by
  intro h
  obtain ⟨result, hrun, hauthor, _, _⟩ := h authorColumnOrm sampleRevision
    [("id", .prim (.num 5)), ("bbid", .prim (.str "b-1")),
      ("data", .obj [("aliasSetId", .prim (.num 9))])]
    .EditionRevision rfl (fun M hM => by cases M <;> first | rfl | exact absurd rfl hM)
  have hconcrete : ∃ r, getCompleteRevision sampleRevision authorColumnOrm = .ok r ∧
      r.hasKey "author" = true := ⟨_, rfl, rfl⟩
  obtain ⟨r, hr, hrAuthor⟩ := hconcrete
  rw [hrun] at hr
  cases hr
  rw [hauthor] at hrAuthor
  cases hrAuthor

/-- C9, amended: for a revision row whose id is present in exactly one revision
subtype table and whose alias-set, entity and parent-alias lookups resolve,
`getCompleteRevision` returns one flat dictionary merging `revisionId`, the
revision fields with author removed and editor set to the value the revision's
author field had, the default-alias fields, the entity fields and the
parent-alias field, later parts winning on equal keys.  The key editor is
always present; the key author is present only if the alias-set row or the
entity row has it; editor holds the revision's author value whenever neither
of these two rows has a key named editor. -/
theorem getCompleteRevision_merges_with_editor (orm : RevisionOrm)
    (revision modelJson : Dict) (Model : RevisionModel)
    (aliasSet entity : Option Dict) (queryRows : Option (List Dict))
    (hhit : orm.fetchRevision Model (revision.get "id") = .ok (some modelJson))
    (hothers : ∀ M, M ≠ Model → orm.fetchRevision M (revision.get "id") = .ok none)
    (halias : orm.fetchAliasSet (modelAliasSetId modelJson) = .ok aliasSet)
    (hentity : orm.fetchEntity (modelBbid modelJson) = .ok entity)
    (hrows : orm.parentAliasRows ((dictOrEmpty entity).get "type")
      ((dictOrEmpty entity).get "bbid") = .ok queryRows) :
    ∃ result, getCompleteRevision revision orm = .ok result ∧
      (∀ key, result.hasKey key =
        (("revisionId" == key) ||
          ((revision.hasKey key || ("editor" == key)) && !("author" == key)) ||
          (dictOrEmpty aliasSet).hasKey key || (dictOrEmpty entity).hasKey key ||
          (parentAliasPart orm.camelCase queryRows).hasKey key)) ∧
      (∀ key, result.get key =
        mergedRead revision (dictOrEmpty aliasSet) (dictOrEmpty entity)
          (parentAliasPart orm.camelCase queryRows) key) ∧
      result.hasKey "editor" = true ∧
      result.hasKey "author" =
        ((dictOrEmpty aliasSet).hasKey "author" || (dictOrEmpty entity).hasKey "author") ∧
      ((dictOrEmpty aliasSet).hasKey "editor" = false →
        (dictOrEmpty entity).hasKey "editor" = false →
        result.get "editor" = revision.get "author") := by
  have hrun := (getCompleteRevision_of_only_hit orm revision modelJson Model hhit hothers).trans
    (assembleRevision_resolved orm revision modelJson aliasSet entity queryRows halias hentity
      hrows)
  have hparentKeys : ∀ key, key ≠ "parentAlias" →
      (parentAliasPart orm.camelCase queryRows).hasKey key = false := by
    intro key hkey
    cases queryRows with
    | none => rfl
    | some rows =>
      simp only [parentAliasPart, Dict.hasKey, List.any_cons, List.any_nil, Bool.or_false,
        beq_eq_false_iff_ne, ne_eq]
      exact fun e => hkey e.symm
  refine ⟨_, hrun, mergeRevision_hasKey _ _ _ _ _, mergeRevision_get _ _ _ _, ?_, ?_, ?_⟩
  · rw [mergeRevision_hasKey]
    simp
  · rw [mergeRevision_hasKey, hparentKeys "author" (by decide)]
    simp
  · intro ha he
    rw [mergeRevision_get]
    simp [mergedRead, ha, he, hparentKeys "editor" (by decide)]

theorem getCompleteRevision_merges_with_editor_witness :
    ∃ result, getCompleteRevision sampleRevision sampleOrm = .ok result ∧
      result.hasKey "author" = false ∧
      result.hasKey "editor" = true ∧
      result.get "editor" = .obj [("name", .prim (.str "editor1"))] ∧
      result.get "type" = .prim (.str "Edition") ∧
      result.get "id" = .prim (.num 9) := by
  obtain ⟨result, hrun, _, hget, heditor, hauthor, hvalue⟩ :=
    getCompleteRevision_merges_with_editor sampleOrm sampleRevision
      [("id", .prim (.num 5)), ("bbid", .prim (.str "b-1")),
        ("data", .obj [("aliasSetId", .prim (.num 9))])]
      .EditionRevision
      (some [("id", .prim (.num 9)), ("defaultAlias", .obj [("name", .prim (.str "Foo"))])])
      (some [("bbid", .prim (.str "b-1")), ("type", .prim (.str "Edition"))])
      (some [[("name", .prim (.str "Old")), ("sort_name", .prim (.str "Old, The"))]])
      rfl (fun M h => by cases M <;> first | rfl | exact absurd rfl h) rfl rfl rfl
  exact ⟨result, hrun, hauthor.trans rfl, heditor, (hvalue rfl rfl).trans rfl,
    (hget "type").trans rfl, (hget "id").trans rfl⟩

/-- C10: `getCompleteRevision` probes the revision subtype models in the fixed
order Author, EditionGroup, Edition, Publisher, Work.  When the models before
one resolve to no row and that one resolves to a row, the result is built from
that row alone: it is the merge around the alias set and entity that row points
to, it holds `revisionId`, and it stays the same however the later tables
answer.  When no subtype table has a matching row the result is the empty
dictionary, not an error.  A probe that is rejected before any row is found
rejects the whole call. -/
theorem getCompleteRevision_first_match_wins (orm : RevisionOrm) (revision : Dict) :
    getRevisionModels =
      [.AuthorRevision, .EditionGroupRevision, .EditionRevision, .PublisherRevision,
        .WorkRevision] ∧
    (∀ (pre post : List RevisionModel) (Model : RevisionModel) (modelJson : Dict),
      getRevisionModels = pre ++ Model :: post →
      (∀ M ∈ pre, orm.fetchRevision M (revision.get "id") = .ok none) →
      orm.fetchRevision Model (revision.get "id") = .ok (some modelJson) →
      (∀ later : RevisionModel → Json → Except String (Option Dict),
        (∀ M ∈ pre ++ [Model],
          later M (revision.get "id") = orm.fetchRevision M (revision.get "id")) →
        getCompleteRevision revision { orm with fetchRevision := later } =
          getCompleteRevision revision orm) ∧
      ∀ (aliasSet entity : Option Dict) (queryRows : Option (List Dict)),
        orm.fetchAliasSet (modelAliasSetId modelJson) = .ok aliasSet →
        orm.fetchEntity (modelBbid modelJson) = .ok entity →
        orm.parentAliasRows ((dictOrEmpty entity).get "type")
          ((dictOrEmpty entity).get "bbid") = .ok queryRows →
        ∃ result, getCompleteRevision revision orm = .ok result ∧
          result.hasKey "revisionId" = true ∧
          result.hasKey "editor" = true ∧
          ∀ key, result.get key =
            mergedRead revision (dictOrEmpty aliasSet) (dictOrEmpty entity)
              (parentAliasPart orm.camelCase queryRows) key) ∧
    ((∀ M ∈ getRevisionModels, orm.fetchRevision M (revision.get "id") = .ok none) →
      getCompleteRevision revision orm = .ok []) ∧
    (∀ (pre post : List RevisionModel) (Model : RevisionModel) (e : String),
      getRevisionModels = pre ++ Model :: post →
      (∀ M ∈ pre, orm.fetchRevision M (revision.get "id") = .ok none) →
      orm.fetchRevision Model (revision.get "id") = .error e →
      getCompleteRevision revision orm = .error e) := by
  refine ⟨rfl, ?_, ?_, ?_⟩
  · intro pre post Model modelJson hsplit hpre hhit
    have hrun : getCompleteRevision revision orm = assembleRevision orm revision modelJson := by
      unfold getCompleteRevision
      rw [hsplit]
      exact getCompleteRevisionLoop_first_hit orm revision modelJson pre post Model hpre hhit
    constructor
    · intro later hlater
      have hrun2 : getCompleteRevision revision { orm with fetchRevision := later } =
          assembleRevision { orm with fetchRevision := later } revision modelJson := by
        unfold getCompleteRevision
        rw [hsplit]
        refine getCompleteRevisionLoop_first_hit _ revision modelJson pre post Model ?_ ?_
        · intro M hM
          exact (hlater M (List.mem_append_left _ hM)).trans (hpre M hM)
        · exact (hlater Model (List.mem_append_right _ (List.mem_singleton.mpr rfl))).trans hhit
      rw [hrun2, hrun]
      rfl
    · intro aliasSet entity queryRows halias hentity hrows
      have hassemble := assembleRevision_resolved orm revision modelJson aliasSet entity
        queryRows halias hentity hrows
      refine ⟨_, hrun.trans hassemble, ?_, ?_, mergeRevision_get _ _ _ _⟩
      · rw [mergeRevision_hasKey]
        simp
      · rw [mergeRevision_hasKey]
        simp
  · intro hnone
    unfold getCompleteRevision
    have := getCompleteRevisionLoop_skip orm revision getRevisionModels [] hnone
    rw [List.append_nil] at this
    rw [this]
    rfl
  · intro pre post Model e hsplit hpre hrej
    unfold getCompleteRevision
    rw [hsplit]
    exact getCompleteRevisionLoop_first_rejection orm revision pre post Model e hpre hrej

theorem getCompleteRevision_first_match_wins_witness :
    (∃ result, getCompleteRevision sampleRevision sampleOrm = .ok result ∧
      result.hasKey "revisionId" = true ∧
      result.get "revisionId" = .prim (.num 5) ∧
      result.get "bbid" = .prim (.str "b-1")) ∧
    getCompleteRevision sampleRevision emptyOrm = .ok [] := by
  obtain ⟨result, hrun, hkey, _, hget⟩ :=
    ((getCompleteRevision_first_match_wins sampleOrm sampleRevision).2.1
      [.AuthorRevision, .EditionGroupRevision] [.PublisherRevision, .WorkRevision]
      .EditionRevision
      [("id", .prim (.num 5)), ("bbid", .prim (.str "b-1")),
        ("data", .obj [("aliasSetId", .prim (.num 9))])]
      rfl
      (fun M h => by
        rcases List.mem_cons.mp h with h | h
        · subst h; rfl
        · rw [List.mem_singleton.mp h]; rfl)
      rfl).2
      (some [("id", .prim (.num 9)), ("defaultAlias", .obj [("name", .prim (.str "Foo"))])])
      (some [("bbid", .prim (.str "b-1")), ("type", .prim (.str "Edition"))])
      (some [[("name", .prim (.str "Old")), ("sort_name", .prim (.str "Old, The"))]])
      rfl rfl rfl
  exact ⟨⟨result, hrun, hkey, (hget "revisionId").trans rfl, (hget "bbid").trans rfl⟩,
    (getCompleteRevision_first_match_wins emptyOrm sampleRevision).2.2.1 (fun _ _ => rfl)⟩

/-! ### C11: the tab state machine -/

theorem nextAvailable_iff (state : FormState) :
    nextAvailable state = true ↔ state.tab = 1 ∨ state.tab = 2 := by
  simp [nextAvailable, renderSteps]

theorem backAvailable_iff (state : FormState) :
    backAvailable state = true ↔ state.tab = 2 ∨ state.tab = 3 := by
  simp [backAvailable, renderSteps]

theorem formStep_tab_within_steps (refs : FormRefs) (state : FormState) (action : FormAction)
    (hinv : 1 ≤ state.tab ∧ state.tab ≤ 3) (hen : action.enabled state = true) :
    1 ≤ (formStep refs state action).tab ∧ (formStep refs state action).tab ≤ 3 := by
  cases action with
  | next =>
    have h := (nextAvailable_iff state).mp hen
    simp only [formStep, nextClick, setTab]
    omega
  | back =>
    have h := (backAvailable_iff state).mp hen
    simp only [formStep, backClick, setTab]
    omega
  | select eventKey =>
    have h : eventKey = 1 ∨ eventKey = 2 ∨ eventKey = 3 := by
      simpa [FormAction.enabled, navEventKeys] using hen
    simp only [formStep, setTab]
    omega
  | submit =>
    simp only [formStep, handleSubmit]
    split <;> exact hinv
  | submitError error => exact hinv

theorem runActions_tab_within_steps (trace : List (FormRefs × FormAction)) :
    ∀ (state final : FormState), 1 ≤ state.tab ∧ state.tab ≤ 3 →
      runActions state trace = some final → 1 ≤ final.tab ∧ final.tab ≤ 3 := by
  induction trace with
  | nil =>
    intro state final hinv hrun
    simp only [runActions, Option.some.injEq] at hrun
    rw [← hrun]
    exact hinv
  | cons head rest ih =>
    intro state final hinv hrun
    obtain ⟨refs, action⟩ := head
    simp only [runActions] at hrun
    split at hrun
    · rename_i hen
      exact ih _ final (formStep_tab_within_steps refs state action hinv hen) hrun
    · cases hrun

/-- C11: the tab of the publication form is a state machine over the step
indices 1, 2, 3.  The initial state is tab 1; next is offered exactly on steps
1 and 2 and back exactly on steps 2 and 3; next and back move the tab by
exactly one and a tab selection of key 1, 2 or 3 sets it to that key; in every
state reached from the initial one through offered actions the tab lies within
1..3. -/
theorem publicationForm_tab_within_steps :
    getInitialState.tab = 1 ∧
    (∀ (trace : List (FormRefs × FormAction)) (final : FormState),
      runActions getInitialState trace = some final → 1 ≤ final.tab ∧ final.tab ≤ 3) ∧
    (∀ (refs : FormRefs) (state : FormState),
      (nextClick refs state).tab = state.tab + 1 ∧
      (backClick refs state).tab = state.tab - 1 ∧
      ∀ eventKey, (setTab refs state eventKey).tab = eventKey) ∧
    (∀ state : FormState,
      (FormAction.enabled state .next = true ↔ state.tab = 1 ∨ state.tab = 2) ∧
      (FormAction.enabled state .back = true ↔ state.tab = 2 ∨ state.tab = 3) ∧
      ∀ eventKey, FormAction.enabled state (.select eventKey) = true ↔
        eventKey = 1 ∨ eventKey = 2 ∨ eventKey = 3) := by
  refine ⟨rfl, ?_, ?_, ?_⟩
  · intro trace final hrun
    exact runActions_tab_within_steps trace getInitialState final (by decide) hrun
  · intro refs state
    exact ⟨rfl, rfl, fun _ => rfl⟩
  · intro state
    refine ⟨nextAvailable_iff state, backAvailable_iff state, ?_⟩
    intro eventKey
    simp [FormAction.enabled, navEventKeys]

theorem publicationForm_tab_within_steps_witness :
    runActions getInitialState
        [(sampleRefs, .next), (sampleRefs, .next), (sampleRefs, .back), (sampleRefs, .select 3)]
      = some ⟨3, true, true, false, none⟩ ∧
    ((1 : Int) ≤ 3 ∧ (3 : Int) ≤ 3) ∧
    runActions getInitialState [(sampleRefs, .back)] = none :=
  ⟨rfl,
   publicationForm_tab_within_steps.2.1
     [(sampleRefs, .next), (sampleRefs, .next), (sampleRefs, .back), (sampleRefs, .select 3)]
     ⟨3, true, true, false, none⟩ rfl,
   rfl⟩

end BookBrainz
